import Mathlib

/-!
Verification of the Landlock sandbox applier (`src/internal/sandbox.rs`,
function `apply_landlock_sandbox`) of the claude-agent-sdk-rs repository.

The function builds a Landlock ruleset handling all filesystem access
categories of ABI V3, adds allow rules (read everywhere, execute everywhere,
full rights under each writable root, under `/tmp`, and under `$HOME/.claude`
when it exists), commits the ruleset with `restrict_self`, and warns on
stderr when the kernel did not enforce it.

The landlock crate's API boundary (path-descriptor resolution, the `HOME`
environment variable, directory existence, and the outcome of the commit
step) is modelled by an explicit environment `Env`; the function itself is a
structural translation of the Rust source over that environment.
-/

/-- The filesystem access categories of the landlock crate (`AccessFs`).
ABI V1 introduces all categories up to `makeSym`; ABI V2 adds `refer`;
ABI V3 adds `truncate`. -/
inductive AccessFs where
  | execute
  | writeFile
  | readFile
  | readDir
  | removeDir
  | removeFile
  | makeChar
  | makeDir
  | makeReg
  | makeSock
  | makeFifo
  | makeBlock
  | makeSym
  | refer
  | truncate
deriving DecidableEq, Repr

/-- The Landlock ABI versions the model covers; the source pins `ABI::V3`. -/
inductive ABI where
  | v1
  | v2
  | v3
deriving DecidableEq, Repr

/-- The read-like access categories (`AccessFs::READ` in the landlock crate):
execute, read-file and read-dir. -/
def AccessFs.READ : Finset AccessFs :=
  {AccessFs.execute, AccessFs.readFile, AccessFs.readDir}

/-- `AccessFs::from_all(abi)`: every access category known at the given ABI. -/
def AccessFs.fromAll : ABI → Finset AccessFs
  | ABI.v1 =>
      {AccessFs.execute, AccessFs.writeFile, AccessFs.readFile,
       AccessFs.readDir, AccessFs.removeDir, AccessFs.removeFile,
       AccessFs.makeChar, AccessFs.makeDir, AccessFs.makeReg,
       AccessFs.makeSock, AccessFs.makeFifo, AccessFs.makeBlock,
       AccessFs.makeSym}
  | ABI.v2 =>
      {AccessFs.execute, AccessFs.writeFile, AccessFs.readFile,
       AccessFs.readDir, AccessFs.removeDir, AccessFs.removeFile,
       AccessFs.makeChar, AccessFs.makeDir, AccessFs.makeReg,
       AccessFs.makeSock, AccessFs.makeFifo, AccessFs.makeBlock,
       AccessFs.makeSym, AccessFs.refer}
  | ABI.v3 =>
      {AccessFs.execute, AccessFs.writeFile, AccessFs.readFile,
       AccessFs.readDir, AccessFs.removeDir, AccessFs.removeFile,
       AccessFs.makeChar, AccessFs.makeDir, AccessFs.makeReg,
       AccessFs.makeSock, AccessFs.makeFifo, AccessFs.makeBlock,
       AccessFs.makeSym, AccessFs.refer, AccessFs.truncate}

/-- `AccessFs::from_read(abi)`: the read projection of the category set at
the given ABI (`from_all(abi) & READ`). -/
def AccessFs.fromRead (abi : ABI) : Finset AccessFs :=
  AccessFs.fromAll abi ∩ AccessFs.READ

deriving instance DecidableEq for Except

/-- One `PathBeneath` allow rule: a resolved path handle together with the
access-category set granted beneath it. -/
structure Rule where
  path : String
  access : Finset AccessFs
deriving DecidableEq

/-- A created ruleset: the category set declared via `handle_access`
(denied by default) plus the accumulated allow rules, in insertion order. -/
structure RulesetCreated where
  handled : Finset AccessFs
  rules : List Rule
deriving DecidableEq

/-- `landlock::RulesetStatus`: the tri-state enforcement outcome of
`restrict_self`. -/
inductive RulesetStatus where
  | fullyEnforced
  | partiallyEnforced
  | notEnforced
deriving DecidableEq, Repr

/-- `landlock::RestrictionStatus`: what `restrict_self` returns on success. -/
structure RestrictionStatus where
  ruleset : RulesetStatus
  noNewPrivs : Bool
deriving DecidableEq, Repr

/-- The error cases of the apply call, mirroring where a `?` in the source
can propagate a failure: opening a path handle, creating the ruleset, or the
final `restrict_self` call. -/
inductive SandboxError where
  | pathError (path : String)
  | createError
  | restrictError
deriving DecidableEq, Repr

/-- The external world seen by one call: which paths `PathFd::new` can open,
the value of the `HOME` environment variable, which paths `exists()` reports,
whether `handle_access(..).create()` succeeds, and the outcome the kernel
gives to `restrict_self`. -/
structure Env where
  resolves : String → Bool
  home : Option String
  dirExists : String → Bool
  createOk : Bool
  restrictResult : Except Unit RestrictionStatus

/-- `PathFd::new(p)`: returns a handle for `p` when the environment can open
it, and an error otherwise. -/
def PathFd.new (env : Env) (p : String) : Except SandboxError String :=
  if env.resolves p then Except.ok p else Except.error (SandboxError.pathError p)

/-- The `for root in writable_roots` loop of the source: for each root in
order, open it with `PathFd::new` and append a full-rights rule; the first
root that fails to open aborts the loop with its error. -/
def addWritableRules (env : Env) (all_access : Finset AccessFs) :
    List String → List Rule → Except SandboxError (List Rule)
  | [], rules => Except.ok rules
  | root :: rest, rules =>
      match PathFd.new env root with
      | Except.error e => Except.error e
      | Except.ok fd =>
          addWritableRules env all_access rest (rules ++ [Rule.mk fd all_access])

/-- The `$HOME/.claude` carve-out of the source: if `HOME` is set and
`$HOME/.claude` exists, open it and append a full-rights rule; otherwise
leave the rules unchanged. -/
def claudeStep (env : Env) (all_access : Finset AccessFs) (rules : List Rule) :
    Except SandboxError (List Rule) :=
  match env.home with
  | none => Except.ok rules
  | some home =>
      let claude_dir := home ++ "/.claude"
      if env.dirExists claude_dir then
        match PathFd.new env claude_dir with
        | Except.error e => Except.error e
        | Except.ok fd => Except.ok (rules ++ [Rule.mk fd all_access])
      else Except.ok rules

/-- Lines 20 to 48 of the source: pick ABI V3, derive the read projection and
the full category set, create a ruleset handling the full set, then add the
allow rules (read at `/`, execute at `/`, full rights at each writable root,
at `/tmp`, and at `$HOME/.claude` when present). -/
def buildRuleset (env : Env) (writable_roots : List String) :
    Except SandboxError RulesetCreated :=
  if env.createOk = false then Except.error SandboxError.createError
  else
    match PathFd.new env "/" with
    | Except.error e => Except.error e
    | Except.ok rootFd1 =>
        match PathFd.new env "/" with
        | Except.error e => Except.error e
        | Except.ok rootFd2 =>
            match addWritableRules env (AccessFs.fromAll ABI.v3) writable_roots
                [Rule.mk rootFd1 (AccessFs.fromRead ABI.v3),
                 Rule.mk rootFd2 {AccessFs.execute}] with
            | Except.error e => Except.error e
            | Except.ok rules1 =>
                match PathFd.new env "/tmp" with
                | Except.error e => Except.error e
                | Except.ok tmpFd =>
                    match claudeStep env (AccessFs.fromAll ABI.v3)
                        (rules1 ++ [Rule.mk tmpFd (AccessFs.fromAll ABI.v3)]) with
                    | Except.error e => Except.error e
                    | Except.ok rules3 =>
                        Except.ok (RulesetCreated.mk (AccessFs.fromAll ABI.v3) rules3)

/-- The single warning line the source prints to stderr when the ruleset was
not enforced. -/
def warningMessage : String :=
  "Warning: Landlock sandbox not enforced (kernel may not support it)"

/-- Everything one successful call produces: the ruleset committed by
`restrict_self`, the restriction status the kernel returned, and the warning
lines written to stderr. -/
structure ApplyOutcome where
  committed : RulesetCreated
  status : RestrictionStatus
  warnings : List String
deriving DecidableEq

/-- `apply_landlock_sandbox`: build the ruleset, commit it with
`restrict_self`, and warn on stderr exactly when the returned status is
`NotEnforced`. -/
def apply_landlock_sandbox (env : Env) (writable_roots : List String) :
    Except SandboxError ApplyOutcome :=
  match buildRuleset env writable_roots with
  | Except.error e => Except.error e
  | Except.ok rs =>
      match env.restrictResult with
      | Except.error _ => Except.error SandboxError.restrictError
      | Except.ok status =>
          Except.ok (ApplyOutcome.mk rs status
            (if status.ruleset = RulesetStatus.notEnforced
             then [warningMessage] else []))

/-- The value the Rust function actually hands to the caller: a
`Result<(), _>` that drops the outcome details. -/
def applyLandlockSandboxRet (env : Env) (writable_roots : List String) :
    Except SandboxError Unit :=
  (apply_landlock_sandbox env writable_roots).map (fun _ => ())

/-- The two allow rules the source always adds first: the read projection at
the filesystem root and execute-only at the filesystem root. -/
def baseRules : List Rule :=
  [Rule.mk "/" (AccessFs.fromRead ABI.v3),
   Rule.mk "/" {AccessFs.execute}]

/-- Direct transcription of the spec's enumeration of the trailing allow
rules: full rights at `/tmp`, then full rights at `$HOME/.claude` exactly
when `HOME` is set and that directory exists. -/
def specTailRules (env : Env) : List Rule :=
  [Rule.mk "/tmp" (AccessFs.fromAll ABI.v3)] ++
    (match env.home with
     | none => []
     | some h =>
         if env.dirExists (h ++ "/.claude")
         then [Rule.mk (h ++ "/.claude") (AccessFs.fromAll ABI.v3)]
         else [])

/-- Direct transcription of the spec's enumeration of the full rule list:
read at `/`, execute at `/`, full rights at each writable root in order,
full rights at `/tmp`, and full rights at `$HOME/.claude` when present. -/
def specRules (env : Env) (writable_roots : List String) : List Rule :=
  baseRules ++
    writable_roots.map (fun r => Rule.mk r (AccessFs.fromAll ABI.v3)) ++
    specTailRules env

/-- The `$HOME/.claude` rule the source appends, as a standalone list: one
full-rights rule when `HOME` is set and the directory exists, nothing
otherwise. -/
def claudeRules (env : Env) (all_access : Finset AccessFs) : List Rule :=
  match env.home with
  | none => []
  | some home =>
      if env.dirExists (home ++ "/.claude")
      then [Rule.mk (home ++ "/.claude") all_access]
      else []

theorem PathFd.new_ok (env : Env) (p fd : String)
    (h : PathFd.new env p = Except.ok fd) :
    fd = p ∧ env.resolves p = true := by
  unfold PathFd.new at h
  by_cases hr : env.resolves p = true
  · simp [hr] at h
    exact ⟨h.symm, hr⟩
  · simp [hr] at h

theorem addWritableRules_ok_of_resolves (env : Env) (all_access : Finset AccessFs)
    (roots : List String) (acc : List Rule)
    (h : ∀ r ∈ roots, env.resolves r = true) :
    addWritableRules env all_access roots acc =
      Except.ok (acc ++ roots.map (fun r => Rule.mk r all_access)) := by
  induction roots generalizing acc with
  | nil => simp [addWritableRules]
  | cons root rest ih =>
      have hroot : env.resolves root = true := h root (List.mem_cons_self root rest)
      have hrest : ∀ r ∈ rest, env.resolves r = true :=
        fun r hr => h r (List.mem_cons_of_mem root hr)
      simp [addWritableRules, PathFd.new, hroot, ih _ hrest]

theorem addWritableRules_ok_shape (env : Env) (all_access : Finset AccessFs)
    (roots : List String) (acc res : List Rule)
    (h : addWritableRules env all_access roots acc = Except.ok res) :
    res = acc ++ roots.map (fun r => Rule.mk r all_access) := by
  induction roots generalizing acc with
  | nil => simp [addWritableRules] at h; simp [h.symm]
  | cons root rest ih =>
      unfold addWritableRules at h
      cases hpf : PathFd.new env root with
      | error e => rw [hpf] at h; cases h
      | ok fd =>
          rw [hpf] at h
          obtain ⟨hfd, _⟩ := PathFd.new_ok env root fd hpf
          subst hfd
          have := ih _ h
          simp [this]

theorem addWritableRules_error_of_unresolvable (env : Env)
    (all_access : Finset AccessFs) (roots : List String) (acc : List Rule)
    (h : ∃ r ∈ roots, env.resolves r = false) :
    ∃ e, addWritableRules env all_access roots acc = Except.error e := by
  induction roots generalizing acc with
  | nil => simp at h
  | cons root rest ih =>
      by_cases hroot : env.resolves root = true
      · obtain ⟨r, hr, hres⟩ := h
        rcases List.mem_cons.mp hr with rfl | hmem
        · rw [hroot] at hres; cases hres
        · have := ih (acc ++ [Rule.mk root all_access]) ⟨r, hmem, hres⟩
          simpa [addWritableRules, PathFd.new, hroot] using this
      · exact ⟨SandboxError.pathError root,
          by simp [addWritableRules, PathFd.new, hroot]⟩

theorem claudeStep_ok_shape (env : Env) (all_access : Finset AccessFs)
    (rules res : List Rule)
    (h : claudeStep env all_access rules = Except.ok res) :
    res = rules ++ claudeRules env all_access := by
  unfold claudeStep at h
  unfold claudeRules
  cases hh : env.home with
  | none => rw [hh] at h; simp at h; simp [h.symm]
  | some home =>
      rw [hh] at h
      by_cases hd : env.dirExists (home ++ "/.claude") = true
      · simp only [hd, if_true]
        cases hpf : PathFd.new env (home ++ "/.claude") with
        | error e => simp [hd, hpf] at h
        | ok fd =>
            obtain ⟨hfd, _⟩ := PathFd.new_ok env _ fd hpf
            subst hfd
            simp [hd, hpf] at h
            simp [h.symm]
      · simp [hd] at h
        simp [hd, h.symm]

theorem claudeStep_ok_of (env : Env) (all_access : Finset AccessFs)
    (rules : List Rule)
    (hres : ∀ home, env.home = some home →
      env.dirExists (home ++ "/.claude") = true →
      env.resolves (home ++ "/.claude") = true) :
    claudeStep env all_access rules = Except.ok (rules ++ claudeRules env all_access) := by
  unfold claudeStep claudeRules
  cases hh : env.home with
  | none => simp
  | some home =>
      by_cases hd : env.dirExists (home ++ "/.claude") = true
      · simp [hd, PathFd.new, hres home hh hd]
      · simp [hd]

theorem specTailRules_eq (env : Env) :
    specTailRules env =
      [Rule.mk "/tmp" (AccessFs.fromAll ABI.v3)] ++
        claudeRules env (AccessFs.fromAll ABI.v3) := by
  unfold specTailRules claudeRules
  cases env.home <;> simp

theorem buildRuleset_ok_of (env : Env) (writable_roots : List String)
    (hC : env.createOk = true)
    (hRoot : env.resolves "/" = true)
    (hRoots : ∀ r ∈ writable_roots, env.resolves r = true)
    (hTmp : env.resolves "/tmp" = true)
    (hClaude : ∀ home, env.home = some home →
      env.dirExists (home ++ "/.claude") = true →
      env.resolves (home ++ "/.claude") = true) :
    buildRuleset env writable_roots =
      Except.ok (RulesetCreated.mk (AccessFs.fromAll ABI.v3)
        (specRules env writable_roots)) := by
  unfold buildRuleset
  simp only [hC, Bool.true_eq_false, if_false, PathFd.new, hRoot, if_true, hTmp,
    addWritableRules_ok_of_resolves env (AccessFs.fromAll ABI.v3) writable_roots _ hRoots,
    claudeStep_ok_of env (AccessFs.fromAll ABI.v3) _ hClaude]
  simp [specRules, baseRules, specTailRules_eq]

theorem buildRuleset_ok_shape (env : Env) (writable_roots : List String)
    (rs : RulesetCreated)
    (h : buildRuleset env writable_roots = Except.ok rs) :
    rs.handled = AccessFs.fromAll ABI.v3 ∧
      rs.rules = specRules env writable_roots := by
  unfold buildRuleset at h
  split at h
  · exact Except.noConfusion h
  · split at h
    · exact Except.noConfusion h
    · split at h
      · exact Except.noConfusion h
      · split at h
        · exact Except.noConfusion h
        · split at h
          · exact Except.noConfusion h
          · split at h
            · exact Except.noConfusion h
            · rename_i x1 rootFd1 h1 x2 rootFd2 h2 x3 rules1 h3 x4 tmpFd h4 x5 rules3 h5
              obtain ⟨rfl, -⟩ := PathFd.new_ok env "/" rootFd1 h1
              injection h2 with h2
              subst h2
              obtain ⟨rfl, -⟩ := PathFd.new_ok env "/tmp" tmpFd h4
              have hr1 := addWritableRules_ok_shape env _ _ _ _ h3
              have hr3 := claudeStep_ok_shape env _ _ _ h5
              injection h with h
              subst h
              refine ⟨rfl, ?_⟩
              simp [hr3, hr1, specRules, baseRules, specTailRules_eq]

/-- A fully cooperative concrete environment: every path resolves, `HOME` is
set, `$HOME/.claude` exists, creation succeeds, full enforcement. -/
def envFull : Env :=
  { resolves := fun _ => true
    home := some "/home/u"
    dirExists := fun p => p == "/home/u/.claude"
    createOk := true
    restrictResult := Except.ok
      (RestrictionStatus.mk RulesetStatus.fullyEnforced true) }

/-- Like `envFull` but with `HOME` unset and no existing directories. -/
def envNoHome : Env :=
  { envFull with home := none, dirExists := fun _ => false }

/-- Like `envNoHome` but the kernel reports the ruleset as not enforced. -/
def envNotEnforced : Env :=
  { envNoHome with
      restrictResult :=
        Except.ok (RestrictionStatus.mk RulesetStatus.notEnforced true) }

/-- Like `envNoHome` but the kernel reports partial enforcement. -/
def envPartial : Env :=
  { envNoHome with
      restrictResult :=
        Except.ok (RestrictionStatus.mk RulesetStatus.partiallyEnforced true) }

/-- Like `envNoHome` but the path `/bad` cannot be opened. -/
def envBadRoot : Env :=
  { envNoHome with resolves := fun p => p != "/bad" }

/-- Claim C1: for every call to `apply_landlock_sandbox` whose paths all
resolve, the constructed ruleset declares all access categories of ABI V3
(the chosen capability level) as restricted by default and contains exactly
these allow rules, in order: the read projection at `/`, execute-only at
`/`, the full category set at each entry of `writable_roots` in the given
order, the full category set at `/tmp`, and, exactly when `HOME` is set and
`$HOME/.claude` exists, the full category set at `$HOME/.claude`. -/
theorem claim_C1_ruleset_contents (env : Env) (writable_roots : List String)
    (hC : env.createOk = true)
    (hRoot : env.resolves "/" = true)
    (hRoots : ∀ r ∈ writable_roots, env.resolves r = true)
    (hTmp : env.resolves "/tmp" = true)
    (hClaude : ∀ home, env.home = some home →
      env.dirExists (home ++ "/.claude") = true →
      env.resolves (home ++ "/.claude") = true) :
    buildRuleset env writable_roots =
      Except.ok (RulesetCreated.mk (AccessFs.fromAll ABI.v3)
        (specRules env writable_roots)) :=
  buildRuleset_ok_of env writable_roots hC hRoot hRoots hTmp hClaude

/-- Concrete instantiation of the C1 theorem. -/
theorem claim_C1_witness :
    buildRuleset envFull ["/w"] =
      Except.ok (RulesetCreated.mk (AccessFs.fromAll ABI.v3)
        (specRules envFull ["/w"])) :=
  claim_C1_ruleset_contents envFull ["/w"] rfl rfl (fun _ _ => rfl) rfl
    (fun _ _ _ => rfl)

/-- Claim C2: if some writable root does not resolve to an openable object,
or `/tmp` cannot be opened, the apply call returns an error; it never
returns success. -/
theorem claim_C2_fail_closed (env : Env) (writable_roots : List String)
    (h : (∃ r ∈ writable_roots, env.resolves r = false) ∨
      env.resolves "/tmp" = false) :
    ∃ e, apply_landlock_sandbox env writable_roots = Except.error e := by
  have hb : ∃ e, buildRuleset env writable_roots = Except.error e := by
    unfold buildRuleset
    by_cases hc : env.createOk = false
    · exact ⟨SandboxError.createError, by simp [hc]⟩
    · by_cases hr : env.resolves "/" = true
      · rcases h with ⟨r, hm, hres⟩ | htmp
        · obtain ⟨e, he⟩ := addWritableRules_error_of_unresolvable env
            (AccessFs.fromAll ABI.v3) writable_roots
            [Rule.mk "/" (AccessFs.fromRead ABI.v3),
             Rule.mk "/" {AccessFs.execute}] ⟨r, hm, hres⟩
          exact ⟨e, by simp [hc, PathFd.new, hr, he]⟩
        · cases h2 : addWritableRules env (AccessFs.fromAll ABI.v3) writable_roots
              [Rule.mk "/" (AccessFs.fromRead ABI.v3),
               Rule.mk "/" {AccessFs.execute}] with
          | error e => exact ⟨e, by simp [hc, PathFd.new, hr, h2]⟩
          | ok rules1 =>
              exact ⟨SandboxError.pathError "/tmp",
                by simp [hc, PathFd.new, hr, h2, htmp]⟩
      · exact ⟨SandboxError.pathError "/",
          by simp [hc, PathFd.new, hr]⟩
  obtain ⟨e, he⟩ := hb
  refine ⟨e, ?_⟩
  unfold apply_landlock_sandbox
  rw [he]

/-- Concrete instantiation of the C2 theorem. -/
theorem claim_C2_witness :
    ∃ e, apply_landlock_sandbox envBadRoot ["/bad"] = Except.error e :=
  claim_C2_fail_closed envBadRoot ["/bad"]
    (Or.inl ⟨"/bad", by simp, by decide⟩)

/-- Claim C3: when the commit step reports the not-enforced status, the call
returns success and emits exactly one warning line on stderr. -/
theorem claim_C3_not_enforced_warns (env : Env) (writable_roots : List String)
    (rs : RulesetCreated) (st : RestrictionStatus)
    (hb : buildRuleset env writable_roots = Except.ok rs)
    (hr : env.restrictResult = Except.ok st)
    (hn : st.ruleset = RulesetStatus.notEnforced) :
    applyLandlockSandboxRet env writable_roots = Except.ok () ∧
    apply_landlock_sandbox env writable_roots =
      Except.ok (ApplyOutcome.mk rs st [warningMessage]) := by
  have h2 : apply_landlock_sandbox env writable_roots =
      Except.ok (ApplyOutcome.mk rs st [warningMessage]) := by
    unfold apply_landlock_sandbox
    rw [hb, hr]
    simp [hn]
  refine ⟨?_, h2⟩
  unfold applyLandlockSandboxRet
  rw [h2]
  rfl

/-- Concrete instantiation of the C3 theorem. -/
theorem claim_C3_witness :
    applyLandlockSandboxRet envNotEnforced [] = Except.ok () ∧
    apply_landlock_sandbox envNotEnforced [] =
      Except.ok (ApplyOutcome.mk
        (RulesetCreated.mk (AccessFs.fromAll ABI.v3)
          (specRules envNotEnforced []))
        (RestrictionStatus.mk RulesetStatus.notEnforced true)
        [warningMessage]) :=
  claim_C3_not_enforced_warns envNotEnforced []
    (RulesetCreated.mk (AccessFs.fromAll ABI.v3) (specRules envNotEnforced []))
    (RestrictionStatus.mk RulesetStatus.notEnforced true)
    (by decide) rfl rfl

/-- Counterexample to claim C4: a successful call whose commit status is
partially enforced emits no warning at all — the source only warns on the
not-enforced status. -/
theorem claim_C4_counterexample :
    apply_landlock_sandbox envPartial [] =
      Except.ok (ApplyOutcome.mk
        (RulesetCreated.mk (AccessFs.fromAll ABI.v3) (specRules envPartial []))
        (RestrictionStatus.mk RulesetStatus.partiallyEnforced true)
        []) := by
  decide

/-- Claim C4 as amended: on a successful call whose commit status is
partially enforced, the call succeeds and emits no warning; a warning is
emitted only for the not-enforced status. -/
theorem claim_C4_partial_no_warning (env : Env) (writable_roots : List String)
    (rs : RulesetCreated) (st : RestrictionStatus)
    (hb : buildRuleset env writable_roots = Except.ok rs)
    (hr : env.restrictResult = Except.ok st)
    (hp : st.ruleset = RulesetStatus.partiallyEnforced) :
    apply_landlock_sandbox env writable_roots =
      Except.ok (ApplyOutcome.mk rs st []) := by
  unfold apply_landlock_sandbox
  rw [hb, hr]
  simp [hp]

/-- Concrete instantiation of the amended C4 theorem. -/
theorem claim_C4_witness :
    apply_landlock_sandbox envPartial ["/w"] =
      Except.ok (ApplyOutcome.mk
        (RulesetCreated.mk (AccessFs.fromAll ABI.v3) (specRules envPartial ["/w"]))
        (RestrictionStatus.mk RulesetStatus.partiallyEnforced true)
        []) :=
  claim_C4_partial_no_warning envPartial ["/w"]
    (RulesetCreated.mk (AccessFs.fromAll ABI.v3) (specRules envPartial ["/w"]))
    (RestrictionStatus.mk RulesetStatus.partiallyEnforced true)
    (by decide) rfl rfl

/-- Counterexample to claim C5: two calls that reach different enforcement
sub-states (fully enforced vs not enforced) hand the caller the identical
value `Ok(())`, so the sub-state is not recorded in the returned value. -/
theorem claim_C5_counterexample :
    applyLandlockSandboxRet envNoHome [] = Except.ok () ∧
    applyLandlockSandboxRet envNotEnforced [] = Except.ok () ∧
    (apply_landlock_sandbox envNoHome []).toOption.map
        (fun o => o.status.ruleset) = some RulesetStatus.fullyEnforced ∧
    (apply_landlock_sandbox envNotEnforced []).toOption.map
        (fun o => o.status.ruleset) = some RulesetStatus.notEnforced := by
  decide

/-- Claim C5 as amended: every successful call returns the bare `Ok(())`,
which carries no enforcement sub-state; the only observable distinction is
the stderr warning, present exactly for the not-enforced sub-state. -/
theorem claim_C5_return_discards_status (env : Env)
    (writable_roots : List String) (out : ApplyOutcome)
    (h : apply_landlock_sandbox env writable_roots = Except.ok out) :
    applyLandlockSandboxRet env writable_roots = Except.ok () ∧
    (out.warnings ≠ [] ↔ out.status.ruleset = RulesetStatus.notEnforced) := by
  have hret : applyLandlockSandboxRet env writable_roots = Except.ok () := by
    unfold applyLandlockSandboxRet
    rw [h]
    rfl
  refine ⟨hret, ?_⟩
  unfold apply_landlock_sandbox at h
  split at h
  · exact Except.noConfusion h
  · split at h
    · exact Except.noConfusion h
    · injection h with h
      subst h
      rename_i x1 rs hb x2 st hr
      by_cases hn : st.ruleset = RulesetStatus.notEnforced <;> simp [hn]

/-- Concrete instantiation of the amended C5 theorem. -/
theorem claim_C5_witness :
    applyLandlockSandboxRet envNotEnforced [] = Except.ok () ∧
    ((ApplyOutcome.mk
        (RulesetCreated.mk (AccessFs.fromAll ABI.v3) (specRules envNotEnforced []))
        (RestrictionStatus.mk RulesetStatus.notEnforced true)
        [warningMessage]).warnings ≠ [] ↔
      (ApplyOutcome.mk
        (RulesetCreated.mk (AccessFs.fromAll ABI.v3) (specRules envNotEnforced []))
        (RestrictionStatus.mk RulesetStatus.notEnforced true)
        [warningMessage]).status.ruleset = RulesetStatus.notEnforced) :=
  claim_C5_return_discards_status envNotEnforced []
    (ApplyOutcome.mk
      (RulesetCreated.mk (AccessFs.fromAll ABI.v3) (specRules envNotEnforced []))
      (RestrictionStatus.mk RulesetStatus.notEnforced true)
      [warningMessage])
    (by decide)

/-- Claim C6: when `HOME` is unset, or `$HOME/.claude` does not exist, the
session-state carve-out is skipped without error: the build succeeds and the
resulting rule list contains no rule for it. -/
theorem claim_C6_claude_carveout_skipped (env : Env)
    (writable_roots : List String)
    (hHome : env.home = none ∨
      ∃ home, env.home = some home ∧
        env.dirExists (home ++ "/.claude") = false)
    (hC : env.createOk = true)
    (hRoot : env.resolves "/" = true)
    (hRoots : ∀ r ∈ writable_roots, env.resolves r = true)
    (hTmp : env.resolves "/tmp" = true) :
    buildRuleset env writable_roots =
      Except.ok (RulesetCreated.mk (AccessFs.fromAll ABI.v3)
        (baseRules ++
          writable_roots.map (fun r => Rule.mk r (AccessFs.fromAll ABI.v3)) ++
          [Rule.mk "/tmp" (AccessFs.fromAll ABI.v3)])) := by
  have hClaude : ∀ home, env.home = some home →
      env.dirExists (home ++ "/.claude") = true →
      env.resolves (home ++ "/.claude") = true := by
    intro home hh hd
    rcases hHome with h0 | ⟨h1, hh1, hd1⟩
    · rw [h0] at hh
      exact Option.noConfusion hh
    · rw [hh1] at hh
      injection hh with hh
      subst hh
      rw [hd1] at hd
      exact Bool.noConfusion hd
  rw [buildRuleset_ok_of env writable_roots hC hRoot hRoots hTmp hClaude]
  have hcr : claudeRules env (AccessFs.fromAll ABI.v3) = [] := by
    unfold claudeRules
    rcases hHome with h0 | ⟨h1, hh1, hd1⟩
    · rw [h0]
    · rw [hh1]
      simp [hd1]
  have hsr : specRules env writable_roots =
      baseRules ++
        writable_roots.map (fun r => Rule.mk r (AccessFs.fromAll ABI.v3)) ++
        [Rule.mk "/tmp" (AccessFs.fromAll ABI.v3)] := by
    unfold specRules
    rw [specTailRules_eq, hcr]
    simp
  rw [hsr]

/-- Concrete instantiation of the C6 theorem. -/
theorem claim_C6_witness :
    buildRuleset envNoHome ["/w"] =
      Except.ok (RulesetCreated.mk (AccessFs.fromAll ABI.v3)
        (baseRules ++
          ["/w"].map (fun r => Rule.mk r (AccessFs.fromAll ABI.v3)) ++
          [Rule.mk "/tmp" (AccessFs.fromAll ABI.v3)])) :=
  claim_C6_claude_carveout_skipped envNoHome ["/w"] (Or.inl rfl) rfl rfl
    (fun _ _ => rfl) rfl

/-- Claim C7: permuting `writable_roots` does not change the resulting
ruleset up to set (multiset) equality of its access rules: two successful
builds over permuted root lists handle the same category set and produce
permuted rule lists. -/
theorem claim_C7_order_irrelevant (env : Env) (roots1 roots2 : List String)
    (rs1 rs2 : RulesetCreated)
    (hperm : roots1.Perm roots2)
    (h1 : buildRuleset env roots1 = Except.ok rs1)
    (h2 : buildRuleset env roots2 = Except.ok rs2) :
    rs1.handled = rs2.handled ∧ rs1.rules.Perm rs2.rules := by
  obtain ⟨ha1, hr1⟩ := buildRuleset_ok_shape env roots1 rs1 h1
  obtain ⟨ha2, hr2⟩ := buildRuleset_ok_shape env roots2 rs2 h2
  refine ⟨ha1.trans ha2.symm, ?_⟩
  rw [hr1, hr2]
  unfold specRules
  exact List.Perm.append_right _
    (List.Perm.append_left _
      (hperm.map (fun r => Rule.mk r (AccessFs.fromAll ABI.v3))))

/-- Concrete instantiation of the C7 theorem. -/
theorem claim_C7_witness :
    (RulesetCreated.mk (AccessFs.fromAll ABI.v3)
        (specRules envNoHome ["/a", "/b"])).handled =
      (RulesetCreated.mk (AccessFs.fromAll ABI.v3)
        (specRules envNoHome ["/b", "/a"])).handled ∧
    (RulesetCreated.mk (AccessFs.fromAll ABI.v3)
        (specRules envNoHome ["/a", "/b"])).rules.Perm
      (RulesetCreated.mk (AccessFs.fromAll ABI.v3)
        (specRules envNoHome ["/b", "/a"])).rules :=
  claim_C7_order_irrelevant envNoHome ["/a", "/b"] ["/b", "/a"]
    (RulesetCreated.mk (AccessFs.fromAll ABI.v3) (specRules envNoHome ["/a", "/b"]))
    (RulesetCreated.mk (AccessFs.fromAll ABI.v3) (specRules envNoHome ["/b", "/a"]))
    (by decide) (by decide) (by decide)

/-- Claim C9: the capability level is a single fixed one (ABI V3),
independent of the environment and never queried from the kernel: every
successful call handles exactly `from_all(V3)`, begins with the
read-projection rule derived from that same level (and `from_read` is by
definition the read projection of `from_all` at the same level), and the
enforcement status in the outcome is exactly whatever the commit step
reported. -/
theorem claim_C9_fixed_capability_level (env : Env)
    (writable_roots : List String) (out : ApplyOutcome)
    (h : apply_landlock_sandbox env writable_roots = Except.ok out) :
    out.committed.handled = AccessFs.fromAll ABI.v3 ∧
    out.committed.rules.take 2 =
      [Rule.mk "/" (AccessFs.fromRead ABI.v3),
       Rule.mk "/" {AccessFs.execute}] ∧
    AccessFs.fromRead ABI.v3 = AccessFs.fromAll ABI.v3 ∩ AccessFs.READ ∧
    ∃ st, env.restrictResult = Except.ok st ∧ out.status = st := by
  unfold apply_landlock_sandbox at h
  split at h
  · exact Except.noConfusion h
  · split at h
    · exact Except.noConfusion h
    · injection h with h
      subst h
      rename_i x1 rs hb x2 st hr
      obtain ⟨ha, hrul⟩ := buildRuleset_ok_shape env writable_roots rs hb
      refine ⟨ha, ?_, rfl, st, hr, rfl⟩
      show rs.rules.take 2 = _
      rw [hrul]
      rfl

/-- Concrete instantiation of the C9 theorem. -/
theorem claim_C9_witness :
    (RulesetCreated.mk (AccessFs.fromAll ABI.v3)
        (specRules envNoHome [])).handled = AccessFs.fromAll ABI.v3 ∧
    (RulesetCreated.mk (AccessFs.fromAll ABI.v3)
        (specRules envNoHome [])).rules.take 2 =
      [Rule.mk "/" (AccessFs.fromRead ABI.v3),
       Rule.mk "/" {AccessFs.execute}] ∧
    AccessFs.fromRead ABI.v3 = AccessFs.fromAll ABI.v3 ∩ AccessFs.READ ∧
    ∃ st, envNoHome.restrictResult = Except.ok st ∧
      (ApplyOutcome.mk
        (RulesetCreated.mk (AccessFs.fromAll ABI.v3) (specRules envNoHome []))
        (RestrictionStatus.mk RulesetStatus.fullyEnforced true) []).status = st :=
  claim_C9_fixed_capability_level envNoHome []
    (ApplyOutcome.mk
      (RulesetCreated.mk (AccessFs.fromAll ABI.v3) (specRules envNoHome []))
      (RestrictionStatus.mk RulesetStatus.fullyEnforced true) [])
    (by decide)

theorem mem_specRules_access_subset (env : Env) (writable_roots : List String)
    (rule : Rule) (h : rule ∈ specRules env writable_roots) :
    rule.access ⊆ AccessFs.fromAll ABI.v3 := by
  have hread : AccessFs.fromRead ABI.v3 ⊆ AccessFs.fromAll ABI.v3 := by decide
  have hexec : ({AccessFs.execute} : Finset AccessFs) ⊆ AccessFs.fromAll ABI.v3 := by
    decide
  unfold specRules at h
  rw [specTailRules_eq] at h
  rcases List.mem_append.mp h with h01 | htail
  · rcases List.mem_append.mp h01 with hbase | hmap
    · unfold baseRules at hbase
      rcases List.mem_cons.mp hbase with rfl | hbase1
      · exact hread
      · rcases List.mem_cons.mp hbase1 with rfl | hbase2
        · exact hexec
        · exact absurd hbase2 (List.not_mem_nil rule)
    · obtain ⟨r, _, rfl⟩ := List.mem_map.mp hmap
      exact fun a ha => ha
  · rcases List.mem_append.mp htail with htmp | hcl
    · rcases List.mem_cons.mp htmp with rfl | htmp1
      · exact fun a ha => ha
      · exact absurd htmp1 (List.not_mem_nil rule)
    · unfold claudeRules at hcl
      cases hh : env.home with
      | none =>
          rw [hh] at hcl
          simp at hcl
      | some home =>
          rw [hh] at hcl
          by_cases hd : env.dirExists (home ++ "/.claude") = true
          · simp [hd] at hcl
            subst hcl
            exact fun a ha => ha
          · simp [hd] at hcl

/-- Claim C10: every allow rule added to the ruleset grants an
access-category set contained in the full category set declared up front via
`handle_access`, so no carve-out grants a right outside the committed
restriction scope. -/
theorem claim_C10_rules_within_scope (env : Env)
    (writable_roots : List String) (out : ApplyOutcome)
    (h : apply_landlock_sandbox env writable_roots = Except.ok out) :
    ∀ rule ∈ out.committed.rules, rule.access ⊆ out.committed.handled := by
  unfold apply_landlock_sandbox at h
  split at h
  · exact Except.noConfusion h
  · split at h
    · exact Except.noConfusion h
    · injection h with h
      subst h
      rename_i x1 rs hb x2 st hr
      obtain ⟨ha, hrul⟩ := buildRuleset_ok_shape env writable_roots rs hb
      show ∀ rule ∈ rs.rules, rule.access ⊆ rs.handled
      intro rule hmem
      rw [hrul] at hmem
      rw [ha]
      exact mem_specRules_access_subset env writable_roots rule hmem

/-- Concrete instantiation of the C10 theorem. -/
theorem claim_C10_witness :
    (Rule.mk "/tmp" (AccessFs.fromAll ABI.v3)).access ⊆
      (RulesetCreated.mk (AccessFs.fromAll ABI.v3)
        (specRules envNoHome [])).handled :=
  claim_C10_rules_within_scope envNoHome []
    (ApplyOutcome.mk
      (RulesetCreated.mk (AccessFs.fromAll ABI.v3) (specRules envNoHome []))
      (RestrictionStatus.mk RulesetStatus.fullyEnforced true) [])
    (by decide)
    (Rule.mk "/tmp" (AccessFs.fromAll ABI.v3))
    (by decide)
